import Mathlib

set_option maxRecDepth 10000

/-!
Verification of `lab-chatbot-with-multi-query-retriever`.

The notebook wires a multi-query retrieval-augmented QA chain. The
repository's own logic is embedded here:
  * `metadata_func` (ingestion metadata extraction, notebook cell 11);
  * `LLM_CONTEXT_PROMPT` and `LLM_DOCUMENT_PROMPT` (cell 16);
  * `_combine_documents` (context assembly, cell 17);
  * the chain `_context | LLM_CONTEXT_PROMPT | llm` (cell 18).
The `MultiQueryRetriever` internals (query expansion, fan-out search,
merge/dedupe) are third-party library code not present in the repository;
they are modelled from the spec where a claim needs them, and marked so.
Python dictionaries are modelled as association lists read through
`List.lookup` (assignment prepends, so the latest binding wins).
-/

/-- A LangChain `Document`: a textual body (`page_content`) and a metadata
dictionary, modelled as an association list of string keys to string values. -/
structure Doc where
  page_content : String
  metadata : List (String × String)
deriving DecidableEq

/-- Membership test for a metadata key, mirroring Python's
`'name' in doc.metadata`. -/
def Doc.hasKey (doc : Doc) (k : String) : Bool :=
  (doc.metadata.lookup k).isSome

/-- Cell 16, `LLM_DOCUMENT_PROMPT`: the per-document template
`"\n---\nSOURCE: {name}\n{page_content}\n---\n"`, modelled as a function of
the two variables it references. -/
def LLM_DOCUMENT_PROMPT (name page_content : String) : String :=
  "\n---\nSOURCE: " ++ name ++ "\n" ++ page_content ++ "\n---\n"

/-- Library `format_document(doc, document_prompt)`: instantiates the
per-document template with the document's `name` metadata entry and its
`page_content`. (`_combine_documents` only calls it after checking that
`name` is present, so the `getD` default is never taken on that path.) -/
def format_document (doc : Doc) (document_prompt : String → String → String) : String :=
  document_prompt ((doc.metadata.lookup "name").getD "") doc.page_content

/-- The loop body of `_combine_documents` (cell 17): walk the retrieved
documents in order, skip (with a printed message, modelled by the companion
`combineSkips`) any document whose metadata lacks `'name'` or whose
`page_content` is empty (falsy), and collect the formatted strings of the
rest. -/
def combineLoop (document_prompt : String → String → String) : List Doc → List String
  | [] => []
  | doc :: rest =>
    if !doc.hasKey "name" then
      combineLoop document_prompt rest
    else if doc.page_content == "" then
      combineLoop document_prompt rest
    else
      format_document doc document_prompt :: combineLoop document_prompt rest

/-- The skip messages printed by `_combine_documents`'s loop (cell 17), one
per document that fails the completeness check, in input order. -/
def combineSkips : List Doc → List String
  | [] => []
  | doc :: rest =>
    if !doc.hasKey "name" then
      "Missing 'name' in document metadata" :: combineSkips rest
    else if doc.page_content == "" then
      "Missing 'page_content' in document" :: combineSkips rest
    else
      combineSkips rest

/-- Python `separator.join(strings)`: the elements interleaved with the
separator — no separator for the empty or singleton list, and one separator
between each adjacent pair (`n - 1` separators for `n` elements, none
leading or trailing). -/
def strJoin (s : String) : List String → String
  | [] => ""
  | [a] => a
  | a :: b :: rest => a ++ s ++ strJoin s (b :: rest)

/-- Cell 17, `_combine_documents(docs, document_prompt, document_separator)`:
collect the formatted strings of the documents that pass the completeness
check and join them with the separator (Python `str.join`). -/
def _combine_documents (docs : List Doc) (document_prompt : String → String → String)
    (document_separator : String) : String :=
  strJoin document_separator (combineLoop document_prompt docs)

/-- The completeness check a document must pass inside `_combine_documents`:
metadata has the key `'name'` and `page_content` is non-empty. -/
def docValid (doc : Doc) : Bool :=
  doc.hasKey "name" && !(doc.page_content == "")

/-- Cell 16, `LLM_CONTEXT_PROMPT`: the QA prompt template, a function of the
`context` and `question` variables it references. -/
def LLM_CONTEXT_PROMPT (context question : String) : String :=
  "You are an assistant for question-answering tasks. Use the following pieces of retrieved context to answer the question. If you don't know the answer, just say that you don't know. Be as verbose and educational in your response as possible. \n    \n    context: " ++ context ++ "\n    Question: \"" ++ question ++ "\"\n    Answer:\n    "

/-- The five record fields `metadata_func` (cell 11) requires. -/
def requiredFields : List String := ["name", "summary", "url", "category", "updated_at"]

/-- Dictionary assignment `d[k] = v` on the association-list model: prepend,
so that `lookup` sees the new binding first. -/
def dictInsert (d : List (String × String)) (k v : String) : List (String × String) :=
  (k, v) :: d

/-- Cell 11, `metadata_func(record, metadata)`: if all five required fields
are present in the record, copy each into the metadata dictionary (five
successive assignments) and return it; otherwise print a skip message and
return `None` (modelled as `none`). -/
def metadata_func (record metadata : List (String × String)) :
    Option (List (String × String)) :=
  if requiredFields.all (fun f => (record.lookup f).isSome) then
    some (dictInsert (dictInsert (dictInsert (dictInsert (dictInsert metadata
      "name" ((record.lookup "name").getD ""))
      "summary" ((record.lookup "summary").getD ""))
      "url" ((record.lookup "url").getD ""))
      "category" ((record.lookup "category").getD ""))
      "updated_at" ((record.lookup "updated_at").getD ""))
  else
    none

/-- Modelled from the spec: the Query Expander inside
`MultiQueryRetriever.from_llm` (cell 14) is library code not present in the
repository. Per the spec it calls an external LLM to produce up to `N`
alternative phrasings and "falls back to the original Query alone" when the
call errors or its output is unparsable. The external call's outcome is an
explicit argument: `none` is a call error, and blank lines of the returned
text are unparsable. -/
def expandQuery (q : String) (N : Nat) (llmOutcome : Option (List String)) :
    List String :=
  match llmOutcome with
  | none => [q]
  | some ls =>
    let parsed := (ls.filter (fun l => l != "")).take N
    if parsed.isEmpty then [q] else parsed

/-- Modelled from the spec: the fan-out step of the Parallel Retriever inside
`MultiQueryRetriever` (cell 14), library code not present in the repository.
Each sub-query's search outcome is an explicit `Except` value (`error` is a
search failure or timeout); the retriever keeps the documents of the
successful sub-queries and drops the failed ones ("partial-failure
tolerance": it returns a value, never propagates the failure). -/
def subQueryDocs (outcomes : List (Except String (List Doc))) : List Doc :=
  (outcomes.map (fun o => match o with | .ok ds => ds | .error _ => [])).flatten

/-- Modelled from the spec: the failure log of the Parallel Retriever — the
error messages of the failed sub-queries, in order. -/
def subQueryLogs : List (Except String (List Doc)) → List String
  | [] => []
  | .ok _ :: rest => subQueryLogs rest
  | .error e :: rest => e :: subQueryLogs rest

/-- Modelled from the spec: the merge/dedupe step of the Parallel Retriever —
documents are deduplicated "by content identity", keeping the first
occurrence of each `page_content` (`seen` holds the contents already kept). -/
def dedupeByContent (seen : List String) : List Doc → List Doc
  | [] => []
  | d :: rest =>
    if seen.contains d.page_content then dedupeByContent seen rest
    else d :: dedupeByContent (d.page_content :: seen) rest

/-- Modelled from the spec: the full Parallel Retriever result — the
documents of the surviving sub-queries, merged and deduplicated by content
identity. -/
def retrieveMerged (outcomes : List (Except String (List Doc))) : List Doc :=
  dedupeByContent [] (subQueryDocs outcomes)

/-- A pipeline stage event, used to state the execution order of the chain. -/
inductive Stage
  | expansionDone
  | searchStart (i : Nat)
  | assembleDone
  | synthesisStart
deriving DecidableEq

/-- Cell 18: the chain `_context | LLM_CONTEXT_PROMPT | llm` with
`_context = RunnableParallel(context=retriever | _combine_documents,
question=RunnablePassthrough())`, a sequential composition of the pipeline
stages. The retriever internals are the spec-modelled definitions above; the
external search and synthesis calls are explicit arguments. The run returns
the answer together with the trace of stage events in execution order. -/
def runChain (q : String) (N : Nat) (llmOutcome : Option (List String))
    (search : String → Except String (List Doc)) (llm : String → String) :
    String × List Stage :=
  let queries := expandQuery q N llmOutcome
  let trace1 := [Stage.expansionDone]
  let outcomes := queries.map search
  let trace2 := trace1 ++ (List.range queries.length).map Stage.searchStart
  let docs := retrieveMerged outcomes
  let context := _combine_documents docs LLM_DOCUMENT_PROMPT "\n\n"
  let trace3 := trace2 ++ [Stage.assembleDone]
  let prompt := LLM_CONTEXT_PROMPT context q
  let answer := llm prompt
  (answer, trace3 ++ [Stage.synthesisStart])

example : _combine_documents [] LLM_DOCUMENT_PROMPT "\n\n" = "" := rfl

example :
    _combine_documents
      [⟨"body1", [("name", "docA"), ("summary", "s")]⟩, ⟨"body2", []⟩]
      LLM_DOCUMENT_PROMPT "\n\n"
      = "\n---\nSOURCE: docA\nbody1\n---\n" := rfl

/-! ### Helper lemmas about context assembly -/

theorem combineLoop_eq_filter_map (p : String → String → String) (docs : List Doc) :
    combineLoop p docs = (docs.filter docValid).map (fun d => format_document d p) := by
  induction docs with
  | nil => rfl
  | cons d rest ih =>
    by_cases h1 : d.hasKey "name"
    · by_cases h2 : d.page_content == ""
      · simp [combineLoop, docValid, h1, h2, ih]
      · simp [combineLoop, docValid, h1, h2, ih]
    · simp [combineLoop, docValid, h1, ih]

theorem combineSkips_length (docs : List Doc) :
    (combineSkips docs).length = (docs.filter (fun d => !docValid d)).length := by
  induction docs with
  | nil => rfl
  | cons d rest ih =>
    by_cases h1 : d.hasKey "name"
    · by_cases h2 : d.page_content == ""
      · simp [combineSkips, docValid, h1, h2, ih]
      · simp [combineSkips, docValid, h1, h2, ih]
    · simp [combineSkips, docValid, h1, ih]

/-- `C1`: `_combine_documents` returns exactly the per-document template
instantiations of the documents whose metadata contains `'name'` and whose
page content is non-empty, joined by the separator in input order; every
document failing the check is skipped (the output is determined by the
passing documents alone, so a skipped document contributes nothing) and the
function is total, producing one skip report per skipped document instead of
raising. -/
theorem combine_documents_exactly_valid (docs : List Doc)
    (p : String → String → String) (s : String) :
    _combine_documents docs p s =
      strJoin s ((docs.filter docValid).map (fun d => format_document d p)) ∧
    (combineSkips docs).length = (docs.filter (fun d => !docValid d)).length := by
  refine ⟨?_, combineSkips_length docs⟩
  unfold _combine_documents
  rw [combineLoop_eq_filter_map]

/-- `C5`: context assembly is deterministic — two calls of
`_combine_documents` on the same document list, template and separator
produce byte-identical strings (the embedding is a pure function of exactly
these three inputs). -/
theorem combine_documents_deterministic (docs : List Doc)
    (p : String → String → String) (s : String) :
    _combine_documents docs p s = _combine_documents docs p s ∧
    combineSkips docs = combineSkips docs :=
  ⟨rfl, rfl⟩

/-- `C6`: when no retrieved document passes validation (in particular for the
empty list), `_combine_documents` returns the empty string, and the prompt
built by `LLM_CONTEXT_PROMPT` is still well-formed: the `context:` section is
present but empty, immediately followed by the `Question:` section. -/
theorem combine_documents_empty_context (docs : List Doc) (q : String)
    (h : ∀ d ∈ docs, docValid d = false) :
    _combine_documents docs LLM_DOCUMENT_PROMPT "\n\n" = "" ∧
    LLM_CONTEXT_PROMPT (_combine_documents docs LLM_DOCUMENT_PROMPT "\n\n") q =
      "You are an assistant for question-answering tasks. Use the following pieces of retrieved context to answer the question. If you don't know the answer, just say that you don't know. Be as verbose and educational in your response as possible. \n    \n    context: \n    Question: \"" ++ q ++ "\"\n    Answer:\n    " := by
  have hf : docs.filter docValid = [] := by
    simp only [List.filter_eq_nil_iff]
    intro d hd
    simp [h d hd]
  have h1 : _combine_documents docs LLM_DOCUMENT_PROMPT "\n\n" = "" := by
    unfold _combine_documents
    rw [combineLoop_eq_filter_map, hf]
    rfl
  refine ⟨h1, ?_⟩
  rw [h1]
  unfold LLM_CONTEXT_PROMPT
  rfl

/-- Witness for `C6` at a concrete run: one document with no metadata and
empty body fails validation, the context is empty, and the prompt keeps its
empty context section. -/
theorem combine_documents_empty_context_witness :
    _combine_documents [⟨"", []⟩, ⟨"body", []⟩] LLM_DOCUMENT_PROMPT "\n\n" = "" ∧
    LLM_CONTEXT_PROMPT
        (_combine_documents [⟨"", []⟩, ⟨"body", []⟩] LLM_DOCUMENT_PROMPT "\n\n")
        "how to ensure correct tax deduction?" =
      "You are an assistant for question-answering tasks. Use the following pieces of retrieved context to answer the question. If you don't know the answer, just say that you don't know. Be as verbose and educational in your response as possible. \n    \n    context: \n    Question: \"how to ensure correct tax deduction?\"\n    Answer:\n    " :=
  combine_documents_empty_context [⟨"", []⟩, ⟨"body", []⟩]
    "how to ensure correct tax deduction?" (by decide)

/-- `C8`: metadata extraction is all-or-nothing — `metadata_func` returns a
populated mapping exactly when all five required fields are present in the
record, and in that case the returned mapping holds the record's values at
the five keys and the original metadata values everywhere else; when any
field is missing it returns `none`, so no partially populated mapping is
ever produced. -/
theorem metadata_func_all_or_nothing (record metadata : List (String × String)) :
    ((metadata_func record metadata).isSome ↔
      ∀ f ∈ requiredFields, (record.lookup f).isSome) ∧
    (∀ m, metadata_func record metadata = some m →
      (∀ f ∈ requiredFields, m.lookup f = record.lookup f) ∧
      (∀ k, k ∉ requiredFields → m.lookup k = metadata.lookup k)) := by
  by_cases h : requiredFields.all (fun f => (record.lookup f).isSome)
  · have hall := List.all_eq_true.mp h
    constructor
    · simp only [metadata_func, h, if_true, Option.isSome_some, true_iff]
      intro f hf
      exact hall f hf
    · intro m hm
      simp only [metadata_func, h, if_true, Option.some.injEq] at hm
      constructor
      · intro f hf
        simp only [requiredFields, List.mem_cons, List.mem_singleton] at hf
        rcases hf with rfl | rfl | rfl | rfl | rfl | hf
        · obtain ⟨x, hx⟩ := Option.isSome_iff_exists.mp
            (hall "name" (by simp [requiredFields]))
          simp [← hm, dictInsert, List.lookup, hx]
        · obtain ⟨x, hx⟩ := Option.isSome_iff_exists.mp
            (hall "summary" (by simp [requiredFields]))
          simp [← hm, dictInsert, List.lookup, hx]
        · obtain ⟨x, hx⟩ := Option.isSome_iff_exists.mp
            (hall "url" (by simp [requiredFields]))
          simp [← hm, dictInsert, List.lookup, hx]
        · obtain ⟨x, hx⟩ := Option.isSome_iff_exists.mp
            (hall "category" (by simp [requiredFields]))
          simp [← hm, dictInsert, List.lookup, hx]
        · obtain ⟨x, hx⟩ := Option.isSome_iff_exists.mp
            (hall "updated_at" (by simp [requiredFields]))
          simp [← hm, dictInsert, List.lookup, hx]
        · simp at hf
      · intro k hk
        simp only [requiredFields, List.mem_cons, List.mem_singleton,
          not_or] at hk
        obtain ⟨h1, h2, h3, h4, h5, _⟩ := hk
        have b1 : (k == "name") = false := beq_eq_false_iff_ne.mpr h1
        have b2 : (k == "summary") = false := beq_eq_false_iff_ne.mpr h2
        have b3 : (k == "url") = false := beq_eq_false_iff_ne.mpr h3
        have b4 : (k == "category") = false := beq_eq_false_iff_ne.mpr h4
        have b5 : (k == "updated_at") = false := beq_eq_false_iff_ne.mpr h5
        simp [← hm, dictInsert, List.lookup, b1, b2, b3, b4, b5]
  · constructor
    · simp only [metadata_func, h, if_false, Option.isSome_none,
        Bool.false_eq_true, false_iff]
      intro hcon
      exact h (List.all_eq_true.mpr hcon)
    · intro m hm
      simp [metadata_func, h] at hm

/-- Witness for `C8` at a concrete record holding all five fields: the
extraction succeeds. -/
theorem metadata_func_all_or_nothing_witness :
    (metadata_func
      [("name", "n"), ("summary", "s"), ("url", "u"), ("category", "c"),
       ("updated_at", "t"), ("content", "body")] []).isSome :=
  (metadata_func_all_or_nothing
    [("name", "n"), ("summary", "s"), ("url", "u"), ("category", "c"),
     ("updated_at", "t"), ("content", "body")] []).1.mpr (by decide)

/-- `C9`: the ContextBlock depends only on each document's page content and
`'name'` metadata entry — two document lists that agree pointwise on these
(same length, same bodies, same presence and value of `name`) produce the
same `_combine_documents` output, whatever the other metadata entries hold. -/
theorem combine_documents_noninterference (docs1 docs2 : List Doc)
    (p : String → String → String) (s : String)
    (h : List.Forall₂
      (fun d1 d2 => d1.page_content = d2.page_content ∧
        d1.metadata.lookup "name" = d2.metadata.lookup "name") docs1 docs2) :
    _combine_documents docs1 p s = _combine_documents docs2 p s := by
  unfold _combine_documents
  suffices hs : combineLoop p docs1 = combineLoop p docs2 by rw [hs]
  induction h with
  | nil => rfl
  | cons hd _ ih =>
    obtain ⟨hpc, hname⟩ := hd
    simp only [combineLoop, Doc.hasKey, format_document, ih]
    rw [hpc, hname]

/-- Witness for `C9`: two singleton lists whose documents share body and
`name` but differ in `summary`, `url` and `category` give the same context. -/
theorem combine_documents_noninterference_witness :
    _combine_documents [⟨"body", [("name", "n"), ("summary", "s1"), ("url", "u1")]⟩]
        LLM_DOCUMENT_PROMPT "\n\n" =
      _combine_documents [⟨"body", [("name", "n"), ("summary", "s2"), ("category", "c2")]⟩]
        LLM_DOCUMENT_PROMPT "\n\n" :=
  combine_documents_noninterference _ _ LLM_DOCUMENT_PROMPT "\n\n"
    (List.Forall₂.cons ⟨rfl, rfl⟩ List.Forall₂.nil)

/-! ### Helper lemmas about joining -/

theorem strAppendAssoc (a b c : String) : a ++ b ++ c = a ++ (b ++ c) := by
  cases a with | mk la =>
  cases b with | mk lb =>
  cases c with | mk lc =>
  show String.mk (la ++ lb ++ lc) = String.mk (la ++ (lb ++ lc))
  rw [List.append_assoc]

theorem strAppendEmptyRight (a : String) : a ++ "" = a := by
  cases a with | mk la =>
  show String.mk (la ++ []) = String.mk la
  rw [List.append_nil]

theorem combineLoop_append (p : String → String → String) (xs ys : List Doc) :
    combineLoop p (xs ++ ys) = combineLoop p xs ++ combineLoop p ys := by
  induction xs with
  | nil => rfl
  | cons d rest ih =>
    by_cases h1 : d.hasKey "name"
    · by_cases h2 : d.page_content == ""
      · simp [combineLoop, h1, h2, ih]
      · simp [combineLoop, h1, h2, ih]
    · simp [combineLoop, h1, ih]

theorem strJoin_append (s : String) (l1 l2 : List String)
    (h1 : l1 ≠ []) (h2 : l2 ≠ []) :
    strJoin s (l1 ++ l2) = strJoin s l1 ++ s ++ strJoin s l2 := by
  induction l1 with
  | nil => exact absurd rfl h1
  | cons a rest ih =>
    cases rest with
    | nil =>
      cases l2 with
      | nil => exact absurd rfl h2
      | cons b bs => simp [strJoin]
    | cons c cs =>
      have ih2 := ih (List.cons_ne_nil c cs)
      simp only [List.cons_append] at ih2 ⊢
      simp [strJoin, ih2, strAppendAssoc]

theorem strJoin_cons_structure (s a : String) (l : List String) :
    strJoin s (a :: l) = a ++ l.foldr (fun b acc => s ++ b ++ acc) "" := by
  induction l generalizing a with
  | nil => simp [strJoin, strAppendEmptyRight]
  | cons b bs ih =>
    simp [strJoin, ih, strAppendAssoc]

/-- `C10`: context assembly is a join homomorphism over list concatenation —
when both halves contain at least one valid document, combining the
concatenation equals the two combined halves joined by one separator; and
structurally the output for `n` valid documents is the first formatted
string followed by one `separator ++ string` block per remaining valid
document, hence exactly `n - 1` joining separators and no leading or
trailing separator. -/
theorem combine_documents_join_hom (xs ys : List Doc)
    (p : String → String → String) (s : String)
    (hx : xs.filter docValid ≠ []) (hy : ys.filter docValid ≠ []) :
    _combine_documents (xs ++ ys) p s =
      _combine_documents xs p s ++ s ++ _combine_documents ys p s ∧
    (∀ docs : List Doc, _combine_documents docs p s =
      strJoin s ((docs.filter docValid).map (fun d => format_document d p))) ∧
    (∀ a l, strJoin s (a :: l) = a ++ l.foldr (fun b acc => s ++ b ++ acc) "") := by
  refine ⟨?_, ?_, fun a l => strJoin_cons_structure s a l⟩
  · unfold _combine_documents
    rw [combineLoop_append]
    have hx2 : combineLoop p xs ≠ [] := by
      rw [combineLoop_eq_filter_map]
      simpa using hx
    have hy2 : combineLoop p ys ≠ [] := by
      rw [combineLoop_eq_filter_map]
      simpa using hy
    exact strJoin_append s _ _ hx2 hy2
  · intro docs
    unfold _combine_documents
    rw [combineLoop_eq_filter_map]

/-- Witness for `C10` at two concrete singleton lists of valid documents. -/
theorem combine_documents_join_hom_witness :
    _combine_documents ([⟨"bodyA", [("name", "A")]⟩] ++ [⟨"bodyB", [("name", "B")]⟩])
        LLM_DOCUMENT_PROMPT "\n\n" =
      _combine_documents [⟨"bodyA", [("name", "A")]⟩] LLM_DOCUMENT_PROMPT "\n\n" ++
        "\n\n" ++
        _combine_documents [⟨"bodyB", [("name", "B")]⟩] LLM_DOCUMENT_PROMPT "\n\n" :=
  (combine_documents_join_hom [⟨"bodyA", [("name", "A")]⟩] [⟨"bodyB", [("name", "B")]⟩]
    LLM_DOCUMENT_PROMPT "\n\n" (by decide) (by decide)).1

/-- `C3`: for a positive expansion count `N`, the expanded query set has
between 1 and `N` queries; when the expansion call errors (`none`) or its
output is unparsable (only blank lines), it falls back to exactly the
original query, a recoverable outcome (the function returns a value rather
than failing). -/
theorem expandQuery_size_bounds (q : String) (N : Nat) (out : Option (List String))
    (h : 0 < N) :
    1 ≤ (expandQuery q N out).length ∧ (expandQuery q N out).length ≤ N ∧
    expandQuery q N none = [q] ∧
    (∀ ls, (∀ l ∈ ls, l = "") → expandQuery q N (some ls) = [q]) := by
  refine ⟨?_, ?_, rfl, ?_⟩
  · cases out with
    | none => simp [expandQuery]
    | some ls =>
      simp only [expandQuery]
      by_cases hp : ((ls.filter (fun l => l != "")).take N).isEmpty
      · simp [hp]
      · simp only [hp, Bool.false_eq_true, if_false]
        have hne : (ls.filter (fun l => l != "")).take N ≠ [] := by
          simpa [List.isEmpty_iff] using hp
        have := List.length_pos.mpr hne
        omega
  · cases out with
    | none => simpa [expandQuery] using h
    | some ls =>
      simp only [expandQuery]
      by_cases hp : ((ls.filter (fun l => l != "")).take N).isEmpty
      · simp only [hp, if_true]
        simpa using h
      · simp only [hp, Bool.false_eq_true, if_false]
        exact List.length_take_le _ _
  · intro ls hls
    have hf : ls.filter (fun l => l != "") = [] := by
      rw [List.filter_eq_nil_iff]
      intro l hl
      simp [hls l hl]
    simp [expandQuery, hf]

/-- Witness for `C3` at `N = 3` with one blank paraphrase in the output. -/
theorem expandQuery_size_bounds_witness :
    1 ≤ (expandQuery "how to ensure correct tax deduction?" 3
          (some ["p1", "", "p2"])).length ∧
    (expandQuery "how to ensure correct tax deduction?" 3
          (some ["p1", "", "p2"])).length ≤ 3 ∧
    expandQuery "how to ensure correct tax deduction?" 3 none =
      ["how to ensure correct tax deduction?"] ∧
    (∀ ls, (∀ l ∈ ls, l = "") →
      expandQuery "how to ensure correct tax deduction?" 3 (some ls) =
        ["how to ensure correct tax deduction?"]) :=
  expandQuery_size_bounds "how to ensure correct tax deduction?" 3
    (some ["p1", "", "p2"]) (by decide)

/-! ### Helper lemmas about the spec-modelled retriever merge -/

theorem dedupeByContent_mem (seen : List String) (l : List Doc) (d : Doc)
    (hd : d ∈ l) :
    d.page_content ∈ seen ∨
      ∃ d2 ∈ dedupeByContent seen l, d2.page_content = d.page_content := by
  induction l generalizing seen with
  | nil => cases hd
  | cons a rest ih =>
    rcases List.mem_cons.mp hd with rfl | hmem
    · by_cases hc : d.page_content ∈ seen
      · exact Or.inl hc
      · right
        exact ⟨d, by simp [dedupeByContent, hc], rfl⟩
    · by_cases hc : a.page_content ∈ seen
      · rcases ih seen hmem with h | ⟨d2, hd2, he⟩
        · exact Or.inl h
        · refine Or.inr ⟨d2, ?_, he⟩
          simpa [dedupeByContent, hc] using hd2
      · rcases ih (a.page_content :: seen) hmem with h | ⟨d2, hd2, he⟩
        · rcases List.mem_cons.mp h with heq | hs
          · exact Or.inr ⟨a, by simp [dedupeByContent, hc], heq.symm⟩
          · exact Or.inl hs
        · refine Or.inr ⟨d2, ?_, he⟩
          simp only [dedupeByContent]
          rw [if_neg (by simpa using hc)]
          exact List.mem_cons_of_mem a hd2

theorem dedupeByContent_nodup (seen : List String) (l : List Doc) :
    ((dedupeByContent seen l).map (fun d => d.page_content)).Nodup ∧
    (∀ c ∈ (dedupeByContent seen l).map (fun d => d.page_content), c ∉ seen) := by
  induction l generalizing seen with
  | nil => simp [dedupeByContent]
  | cons a rest ih =>
    by_cases hc : a.page_content ∈ seen
    · simpa [dedupeByContent, hc] using ih seen
    · have iha := ih (a.page_content :: seen)
      simp only [dedupeByContent]
      rw [if_neg (by simpa using hc)]
      simp only [List.map_cons, List.nodup_cons]
      refine ⟨⟨?_, iha.1⟩, ?_⟩
      · intro hmem
        exact (iha.2 _ hmem) (List.mem_cons_self _ _)
      · intro c hcm
        rcases List.mem_cons.mp hcm with rfl | hcm2
        · exact hc
        · intro hcs
          exact (iha.2 c hcm2) (List.mem_cons_of_mem _ hcs)

theorem mem_subQueryDocs (outcomes : List (Except String (List Doc)))
    (ds : List Doc) (hok : Except.ok ds ∈ outcomes) (d : Doc) (hd : d ∈ ds) :
    d ∈ subQueryDocs outcomes := by
  simp only [subQueryDocs, List.mem_flatten, List.mem_map]
  exact ⟨ds, ⟨Except.ok ds, hok, rfl⟩, hd⟩

theorem subQueryLogs_append (xs ys : List (Except String (List Doc))) :
    subQueryLogs (xs ++ ys) = subQueryLogs xs ++ subQueryLogs ys := by
  induction xs with
  | nil => rfl
  | cons o rest ih =>
    cases o with
    | ok ds => simpa [subQueryLogs] using ih
    | error e => simp [subQueryLogs, ih]

/-- `C2`: when one sub-query search fails (the `error e` outcome among the
others), the Parallel Retriever still returns — the merged RetrievedSet
contains (a content-identical representative of) every document returned by
the surviving sub-queries, and the failure's message is in the log; the
model is a total function, so no exception propagates past it. -/
theorem retriever_partial_failure (pre post : List (Except String (List Doc)))
    (e : String) :
    (∀ ds, Except.ok ds ∈ pre ++ Except.error e :: post →
      ∀ d ∈ ds, ∃ d2 ∈ retrieveMerged (pre ++ Except.error e :: post),
        d2.page_content = d.page_content) ∧
    e ∈ subQueryLogs (pre ++ Except.error e :: post) := by
  constructor
  · intro ds hok d hd
    have hmem : d ∈ subQueryDocs (pre ++ Except.error e :: post) :=
      mem_subQueryDocs _ ds hok d hd
    rcases dedupeByContent_mem [] _ d hmem with h | h
    · cases h
    · exact h
  · rw [subQueryLogs_append]
    exact List.mem_append_right _ (List.mem_cons_self _ _)

/-- Witness for `C2`: searches around a timed-out sub-query survive and the
timeout is logged. -/
theorem retriever_partial_failure_witness :
    (∃ d2 ∈ retrieveMerged
        ([Except.ok [⟨"bodyB", [("name", "B")]⟩]] ++ Except.error "timeout" ::
          [Except.ok [⟨"bodyC", [("name", "C")]⟩]]),
      d2.page_content = "bodyB") ∧
    "timeout" ∈ subQueryLogs
        ([Except.ok [⟨"bodyB", [("name", "B")]⟩]] ++ Except.error "timeout" ::
          [Except.ok [⟨"bodyC", [("name", "C")]⟩]]) := by
  have h := retriever_partial_failure [Except.ok [⟨"bodyB", [("name", "B")]⟩]]
    [Except.ok [⟨"bodyC", [("name", "C")]⟩]] "timeout"
  exact ⟨h.1 [⟨"bodyB", [("name", "B")]⟩] (List.mem_cons_self _ _)
    ⟨"bodyB", [("name", "B")]⟩ (List.mem_cons_self _ _), h.2⟩

/-- `C4`: no two documents of the merged RetrievedSet share a content
identity — the list of page contents is duplicate-free, and a passage
surfaced by any sub-query appears exactly once (count one) in the merged
result. -/
theorem retrieveMerged_dedupe (outcomes : List (Except String (List Doc))) :
    ((retrieveMerged outcomes).map (fun d => d.page_content)).Nodup ∧
    (∀ d ∈ subQueryDocs outcomes,
      ((retrieveMerged outcomes).map (fun d2 => d2.page_content)).count
        d.page_content = 1) := by
  have hn := dedupeByContent_nodup [] (subQueryDocs outcomes)
  refine ⟨hn.1, ?_⟩
  intro d hd
  rcases dedupeByContent_mem [] _ d hd with h | ⟨d2, hd2, he⟩
  · cases h
  · exact List.count_eq_one_of_mem hn.1 (List.mem_map.mpr ⟨d2, hd2, he⟩)

/-- Witness for `C4`: the same passage surfaced by two different sub-queries
appears exactly once in the merged result. -/
theorem retrieveMerged_dedupe_witness :
    ((retrieveMerged [Except.ok [⟨"bodyB", [("name", "B")]⟩],
        Except.ok [⟨"bodyB", [("name", "B2")]⟩]]).map
      (fun d2 => d2.page_content)).count "bodyB" = 1 :=
  (retrieveMerged_dedupe [Except.ok [⟨"bodyB", [("name", "B")]⟩],
      Except.ok [⟨"bodyB", [("name", "B2")]⟩]]).2
    ⟨"bodyB", [("name", "B")]⟩ (by decide)

/-- `C7`: every run of the chain is strictly staged — the trace is always
`expansionDone`, then the search starts, then `assembleDone`, then
`synthesisStart` last, so expansion completes before any search starts and
assembly completes before synthesis starts; moreover the answer is the
synthesis call applied to the prompt holding the fully assembled context, so
synthesis never begins with an unassembled context. -/
theorem runChain_stage_order (q : String) (N : Nat) (out : Option (List String))
    (search : String → Except String (List Doc)) (llm : String → String) :
    (runChain q N out search llm).2 =
      Stage.expansionDone ::
        ((List.range (expandQuery q N out).length).map Stage.searchStart ++
          [Stage.assembleDone, Stage.synthesisStart]) ∧
    (runChain q N out search llm).1 =
      llm (LLM_CONTEXT_PROMPT
        (_combine_documents (retrieveMerged ((expandQuery q N out).map search))
          LLM_DOCUMENT_PROMPT "\n\n") q) := by
  constructor
  · simp [runChain]
  · rfl
